import Mathlib

/-!
Verification of the cross-thread coordination core of the step-viewer
repository: the message model (`Staircase::Message` with its `nextMessage`
chain link), the `chain` builder, the UI-thread scheduler
`StaircaseViewer::handleMessages`, and the background-loader orchestration
(`StaircaseViewer::_loadStepFile` and the legacy standalone `loadStepFile`).

The embedding is shallow:
* `MessageType` mirrors the message kinds appearing in the source.
* `Message` mirrors `Staircase::Message`: a kind plus an optional
  successor (`nextMessage`).  As a Lean inductive it is finite and
  acyclic by construction, matching the front-to-back construction in
  `chain`.  The type-erased payload (`message.data`) is not modelled: the
  embedded scheduler (`StaircaseViewer::handleMessages`) never reads it.
* `St` mirrors the fields of `AppContext` that the embedded code touches:
  `showingSpinner`, `currentlyViewingDoc` (an abstract handle, `Nat`),
  the view controller's `shouldRender` flag, the shader program (modelled
  as a generation counter bumped by `createShaderProgram`), and the
  message queue.
* External render/log calls are recorded as an `Effect` trace.
* `processMessage` is the body of the scheduler's `switch` plus the
  successor re-push; `handleMessages` is one drain-and-process
  invocation; `multiTick` iterates invocations.
* The two background-loader code paths are embedded as the event
  sequences they perform in program order (`viewerLoadEvents`,
  `legacyLoadEvents`), with `applyEvent` giving the meaning of the
  state-mutating events on the shared context.
-/

inductive MessageType where
  | clearScreen
  | initEmptyScene
  | initStepFile
  | initDemoScene
  | nextFrame
  | drawLoadingScreen
  | setStepFileContent
deriving DecidableEq

inductive Message where
  | mk : MessageType → Option Message → Message

def Message.kind : Message → MessageType
  | .mk t _ => t

def Message.next : Message → Option Message
  | .mk _ n => n

/-- The kinds of a chain, front to back.  Total structural recursion:
a `Message` value is finite and acyclic by construction. -/
def Message.kinds : Message → List MessageType
  | .mk t none => [t]
  | .mk t (some m) => t :: m.kinds

def kindsOpt : Option Message → List MessageType
  | none => []
  | some m => m.kinds

/-- The `chain(types...)` template of the source: builds a singly linked
list of messages front to back and returns the head (null for no
arguments). -/
def chain : List MessageType → Option Message
  | [] => none
  | t :: ts => some (Message.mk t (chain ts))

def chainList (ks : List MessageType) : List Message := (chain ks).toList

inductive Effect where
  | clearCanvas
  | initScene
  | updateView
  | initStepFileCall (d : Option Nat)
  | createShaderProgram
  | drawLoadingScreen
  | logUnhandled
deriving DecidableEq

/-- The fields of `AppContext` touched by the embedded code. -/
structure St where
  showingSpinner : Bool
  currentlyViewingDoc : Option Nat
  shouldRender : Bool
  shaderProgram : Nat
  queue : List Message

structure StepRes where
  state : St
  nf : Bool
  effects : List Effect

/-- One iteration of the scheduler's message loop
(`StaircaseViewer::handleMessages`, the `switch` on `message.type`
followed by the successor re-push).  `nf` is the local `nextFrame`
flag. -/
def processMessage (st : St) (nf : Bool) (m : Message) : StepRes :=
  let res : StepRes :=
    match m.kind with
    | .clearScreen => ⟨st, nf, [Effect.clearCanvas]⟩
    | .initEmptyScene =>
        ⟨{ st with shouldRender := true }, nf,
          [Effect.initScene, Effect.updateView]⟩
    | .initStepFile =>
        ⟨st, nf, [Effect.initStepFileCall st.currentlyViewingDoc]⟩
    | .nextFrame =>
        ⟨{ st with queue := st.queue ++ [Message.mk .nextFrame none] },
          true, []⟩
    | .drawLoadingScreen =>
        let stA :=
          if st.shouldRender
          then { st with shaderProgram := st.shaderProgram + 1 }
          else st
        let esA :=
          if st.shouldRender then [Effect.createShaderProgram] else []
        let stB := { stA with shouldRender := false }
        let es := Effect.clearCanvas :: esA ++ [Effect.drawLoadingScreen]
        if stB.showingSpinner then
          ⟨{ stB with
              queue := stB.queue ++ [Message.mk .drawLoadingScreen none] },
            true, es⟩
        else
          ⟨{ stB with shouldRender := true }, false, es⟩
    | _ => ⟨st, nf, [Effect.logUnhandled]⟩
  match m.next with
  | some nmsg =>
      ⟨{ res.state with queue := res.state.queue ++ [nmsg] }, true,
        res.effects⟩
  | none => res

structure TickRes where
  state : St
  resched : Bool
  effects : List Effect
  processed : List MessageType

/-- The scheduler's `while (!localQueue.empty())` loop over the drained
local queue, threading the context state and the `nextFrame` flag and
recording the effect trace and the kinds processed, in order. -/
def processQueue (st : St) (nf : Bool) : List Message → TickRes
  | [] => ⟨st, nf, [], []⟩
  | m :: ms =>
      let r := processMessage st nf m
      let rest := processQueue r.state r.nf ms
      ⟨rest.state, rest.resched, r.effects ++ rest.effects,
        m.kind :: rest.processed⟩

/-- One scheduler invocation (`StaircaseViewer::handleMessages`): drain
the queue atomically into a local working sequence, process it with
`nextFrame` initialised to false; `resched` tells whether the final
`emscripten_set_timeout` re-arm fires. -/
def handleMessages (st : St) : TickRes :=
  processQueue { st with queue := [] } false st.queue

structure MultiRes where
  state : St
  rescheds : List Bool
  effects : List Effect
  processed : List MessageType

/-- `n` consecutive scheduler invocations, concatenating the effect and
processed-kind traces and recording each invocation's reschedule
request. -/
def multiTick : Nat → St → MultiRes
  | 0, st => ⟨st, [], [], []⟩
  | n + 1, st =>
      let r := handleMessages st
      let rest := multiTick n r.state
      ⟨rest.state, r.resched :: rest.rescheds, r.effects ++ rest.effects,
        r.processed ++ rest.processed⟩

/-!
Background-loader orchestration.  Each loader is embedded as the list of
externally visible operations it performs, in program order.
`parseBegin` marks the point where the blocking `readStepFile` call
starts; the events after it are the ones performed by the completion
callback for the given parse outcome (`none` = empty document handle,
`some d` = success with handle `d`).
-/

inductive LoadEvent where
  | setSpinner (b : Bool)
  | setDoc (d : Nat)
  | pushMsg (m : Message)
  | trigger
  | parseBegin
  | logFail
  | logLabels
  | logLoaded

def isParseBegin : LoadEvent → Bool
  | .parseBegin => true
  | _ => false

def isTrigger : LoadEvent → Bool
  | .trigger => true
  | _ => false

/-- The events the worker performs before the blocking parse, for
`StaircaseViewer::_loadStepFile`. -/
def viewerPreParse : List LoadEvent :=
  [.setSpinner true, .pushMsg (Message.mk .drawLoadingScreen none)]

/-- The events of the completion callback of
`StaircaseViewer::_loadStepFile`, per parse outcome. -/
def viewerCallbackEvents : Option Nat → List LoadEvent
  | none => [.logFail]
  | some d =>
      [.logLabels, .logLoaded, .setSpinner false, .setDoc d,
        .pushMsg (Message.mk .clearScreen
          (chain [.clearScreen, .clearScreen, .initStepFile, .nextFrame])),
        .trigger]

/-- `StaircaseViewer::_loadStepFile` as its event sequence. -/
def viewerLoadEvents (outcome : Option Nat) : List LoadEvent :=
  viewerPreParse ++ LoadEvent.parseBegin :: viewerCallbackEvents outcome

/-- The legacy standalone `loadStepFile` (main.cpp) as its event
sequence: it additionally pushes the step-file text and triggers a
scheduler invocation before the parse, and its success chain ends in
`InitDemoScene` rather than `InitStepFile`. -/
def legacyLoadEvents (outcome : Option Nat) : List LoadEvent :=
  [.setSpinner true, .pushMsg (Message.mk .drawLoadingScreen none),
    .pushMsg (Message.mk .setStepFileContent none), .trigger,
    .parseBegin] ++
  (match outcome with
    | none => [LoadEvent.logFail]
    | some d =>
        [.logLabels, .logLoaded, .setSpinner false, .setDoc d,
          .pushMsg (Message.mk .clearScreen
            (chain [.clearScreen, .clearScreen, .initDemoScene,
              .nextFrame])),
          .trigger])

/-- Meaning of the state-mutating load events on the shared context;
log, trigger and parse markers do not touch it. -/
def applyEvent (st : St) : LoadEvent → St
  | .setSpinner b => { st with showingSpinner := b }
  | .setDoc d => { st with currentlyViewingDoc := some d }
  | .pushMsg m => { st with queue := st.queue ++ [m] }
  | _ => st

def applyEvents (st : St) (es : List LoadEvent) : St :=
  es.foldl applyEvent st

def preParse (es : List LoadEvent) : List LoadEvent :=
  es.takeWhile (fun e => !isParseBegin e)

def chain5msg : Message :=
  Message.mk .clearScreen
    (chain [.clearScreen, .clearScreen, .initEmptyScene, .nextFrame])

/-- Kinds that neither self-push (`NextFrame`) nor conditionally
self-push (`DrawLoadingScreen`): processing them never enqueues anything
beyond the chain successor. -/
def NonSched (k : MessageType) : Prop :=
  k ≠ MessageType.nextFrame ∧ k ≠ MessageType.drawLoadingScreen

instance (k : MessageType) : Decidable (NonSched k) := by
  unfold NonSched
  infer_instance

/-- Kinds that fall into the scheduler's `default:` branch in
`StaircaseViewer::handleMessages`. -/
def Unhandled (k : MessageType) : Prop :=
  k = MessageType.setStepFileContent ∨ k = MessageType.initDemoScene

/-- The self-pushes that processing a message performs inside the
`switch` (a fresh `NextFrame` or `DrawLoadingScreen` singleton), before
the successor re-push. -/
def selfPush (st : St) (m : Message) : List Message :=
  match m.kind with
  | .nextFrame => [Message.mk .nextFrame none]
  | .drawLoadingScreen =>
      if st.showingSpinner then [Message.mk .drawLoadingScreen none] else []
  | _ => []

theorem processQueue_processed (st : St) (nf : Bool) (ms : List Message) :
    (processQueue st nf ms).processed = ms.map Message.kind := by
  induction ms generalizing st nf with
  | nil => rfl
  | cons m ms ih => simp [processQueue, ih]

theorem processQueue_append (xs ys : List Message) (st : St) (nf : Bool) :
    processQueue st nf (xs ++ ys) =
      ⟨(processQueue (processQueue st nf xs).state
          (processQueue st nf xs).resched ys).state,
        (processQueue (processQueue st nf xs).state
          (processQueue st nf xs).resched ys).resched,
        (processQueue st nf xs).effects ++
          (processQueue (processQueue st nf xs).state
            (processQueue st nf xs).resched ys).effects,
        (processQueue st nf xs).processed ++
          (processQueue (processQueue st nf xs).state
            (processQueue st nf xs).resched ys).processed⟩ := by
  induction xs generalizing st nf with
  | nil => simp [processQueue]
  | cons x xs ih => simp [processQueue, ih]

theorem unhandled_step (st : St) (nf : Bool) (k : MessageType)
    (h : Unhandled k) :
    processMessage st nf (Message.mk k none) = ⟨st, nf, [.logUnhandled]⟩ := by
  rcases h with h | h <;> subst h <;> rfl

theorem processMessage_queue (st : St) (nf : Bool) (m : Message) :
    (processMessage st nf m).state.queue =
      st.queue ++ selfPush st m ++ m.next.toList := by
  rcases m with ⟨t, nxt⟩
  rcases st with ⟨sp, dc, shr, shd, q⟩
  cases t <;> cases nxt <;> cases sp <;> cases shr <;>
    simp [processMessage, selfPush, Message.kind, Message.next]

theorem nonsched_queue (st : St) (nf : Bool) (k : MessageType)
    (nxt : Option Message) (h : NonSched k) :
    (processMessage st nf (Message.mk k nxt)).state.queue =
      st.queue ++ nxt.toList := by
  rcases h with ⟨h1, h2⟩
  cases k <;> cases nxt <;>
    simp_all [processMessage, Message.kind, Message.next]

theorem handle_one_chain (k : MessageType) (ks : List MessageType) (st : St)
    (hk : NonSched k) (hq : st.queue = chainList (k :: ks)) :
    (handleMessages st).state.queue = chainList ks ∧
      (handleMessages st).processed = [k] := by
  constructor
  · show (processQueue { st with queue := [] } false st.queue).state.queue = _
    rw [hq]
    show (processQueue { st with queue := [] } false
      [Message.mk k (chain ks)]).state.queue = _
    simp [processQueue, nonsched_queue _ _ _ _ hk, chainList]
  · rw [handleMessages, processQueue_processed, hq]
    rfl

theorem handle_two_chains (k l : MessageType) (ks ls : List MessageType)
    (st : St) (hk : NonSched k) (hl : NonSched l)
    (hq : st.queue = chainList (k :: ks) ++ chainList (l :: ls)) :
    (handleMessages st).state.queue = chainList ks ++ chainList ls ∧
      (handleMessages st).processed = [k, l] := by
  constructor
  · show (processQueue { st with queue := [] } false st.queue).state.queue = _
    rw [hq]
    show (processQueue { st with queue := [] } false
      [Message.mk k (chain ks), Message.mk l (chain ls)]).state.queue = _
    simp [processQueue, nonsched_queue _ _ _ _ hk,
      nonsched_queue _ _ _ _ hl, chainList]
  · rw [handleMessages, processQueue_processed, hq]
    rfl

theorem trace_one_chain (ls : List MessageType) :
    ∀ (st : St), (∀ x ∈ ls, NonSched x) → st.queue = chainList ls →
      (multiTick ls.length st).processed = ls := by
  induction ls with
  | nil => intro st _ _; rfl
  | cons l ls ih =>
    intro st h hq
    obtain ⟨hq2, hp⟩ := handle_one_chain l ls st (h l (by simp)) hq
    have := ih (handleMessages st).state
      (fun x hx => h x (List.mem_cons_of_mem _ hx)) hq2
    simp [multiTick, hp, this]

/-- Lock-step interleaving of two chains drained together: one step of
each per tick, in push order. -/
def roundRobin : List MessageType → List MessageType → List MessageType
  | [], ls => ls
  | k :: ks, [] => k :: ks
  | k :: ks, l :: ls => k :: l :: roundRobin ks ls

theorem trace_two_chains (ks : List MessageType) :
    ∀ (ls : List MessageType) (st : St),
      (∀ x ∈ ks, NonSched x) → (∀ x ∈ ls, NonSched x) →
      st.queue = chainList ks ++ chainList ls →
      (multiTick (max ks.length ls.length) st).processed =
        roundRobin ks ls := by
  induction ks with
  | nil =>
    intro ls st _ hls hq
    simp only [chainList, chain, Option.toList, List.nil_append] at hq
    have h0 : max (List.length ([] : List MessageType)) ls.length
        = ls.length := by simp
    rw [h0]
    have h1 : roundRobin [] ls = ls := rfl
    rw [h1]
    exact trace_one_chain ls st hls hq
  | cons k ks ih =>
    intro ls st hks hls hq
    cases ls with
    | nil =>
      simp only [chainList, chain, Option.toList, List.append_nil] at hq
      have h0 : max (k :: ks).length (List.length ([] : List MessageType))
          = (k :: ks).length := by simp
      rw [h0]
      have h1 : (multiTick (k :: ks).length st).processed = k :: ks :=
        trace_one_chain (k :: ks) st hks hq
      have h2 : roundRobin (k :: ks) [] = k :: ks := rfl
      rw [h2, h1]
    | cons l ls =>
      obtain ⟨hq2, hp⟩ := handle_two_chains k l ks ls st
        (hks k (by simp)) (hls l (by simp)) hq
      have hmax : max (k :: ks).length (l :: ls).length
          = max ks.length ls.length + 1 := by
        simp [List.length_cons, Nat.succ_max_succ]
      rw [hmax]
      have := ih ls (handleMessages st).state
        (fun x hx => hks x (List.mem_cons_of_mem _ hx))
        (fun x hx => hls x (List.mem_cons_of_mem _ hx)) hq2
      simp [multiTick, hp, this, roundRobin]

/-- C1 counterexample: push the five-message chain
`ClearScreen, ClearScreen, ClearScreen, InitEmptyScene, NextFrame` as one
chain into an empty queue and perform ONE drain-and-process invocation.
Only the chain head is processed: the invocation yields exactly one
`clearCanvas` effect (not five effects), while the successor is merely
re-enqueued; the claim that one invocation produces all five effects is
false on the code. -/
theorem C1_single_tick_counterexample :
    (handleMessages ⟨false, none, false, 0, [chain5msg]⟩).effects
        = [.clearCanvas] ∧
      (handleMessages ⟨false, none, false, 0, [chain5msg]⟩).processed
        = [.clearScreen] ∧
      (handleMessages ⟨false, none, false, 0, [chain5msg]⟩).resched = true ∧
      (handleMessages ⟨false, none, false, 0,
          [chain5msg]⟩).state.queue.length = 1 := by
  refine ⟨rfl, rfl, rfl, rfl⟩

/-- C1 amended: with the five-message chain pushed as one chain into an
empty queue, FIVE consecutive drain-and-process invocations (one chain
step per invocation) produce exactly the five effects in order
(three clears, then the empty-scene initialisation `initScene` and
`updateView`), every invocation ends with a reschedule request, the
document handle is unchanged (hence still unset), and the spinner flag
is unchanged. -/
theorem C1_chain_five_ticks (b r : Bool) (sp : Nat) (d0 : Option Nat) :
    multiTick 5 ⟨b, d0, r, sp, [chain5msg]⟩ =
      ⟨⟨b, d0, true, sp, [Message.mk .nextFrame none]⟩,
        [true, true, true, true, true],
        [.clearCanvas, .clearCanvas, .clearCanvas, .initScene, .updateView],
        [.clearScreen, .clearScreen, .clearScreen, .initEmptyScene,
          .nextFrame]⟩ := rfl

/-- C2: processing a `NextFrame` message sets the local reschedule flag
`nextFrame` to true and has no other side effect: no render call is
emitted and no context field changes, except that the reschedule request
itself enqueues a fresh `NextFrame` singleton (and, as for every
message, a chain successor is re-enqueued when present). -/
theorem C2_nextFrame_reschedule_only (st : St) (nf : Bool)
    (nxt : Option Message) :
    (processMessage st nf (Message.mk .nextFrame nxt)).nf = true ∧
      (processMessage st nf (Message.mk .nextFrame nxt)).effects = [] ∧
      (processMessage st nf
        (Message.mk .nextFrame nxt)).state.showingSpinner
        = st.showingSpinner ∧
      (processMessage st nf
        (Message.mk .nextFrame nxt)).state.currentlyViewingDoc
        = st.currentlyViewingDoc ∧
      (processMessage st nf
        (Message.mk .nextFrame nxt)).state.shouldRender
        = st.shouldRender ∧
      (processMessage st nf
        (Message.mk .nextFrame nxt)).state.shaderProgram
        = st.shaderProgram ∧
      (processMessage st nf (Message.mk .nextFrame nxt)).state.queue
        = st.queue ++ Message.mk .nextFrame none :: nxt.toList := by
  cases nxt <;> simp [processMessage, Message.kind, Message.next]

/-- C3 counterexample: drain `[NextFrame, DrawLoadingScreen]` with
`showingSpinner = false`.  The `NextFrame` alone does request a
reschedule (second conjunct), yet the invocation ends with NO timer
re-arm (first conjunct): the spinner-off `DrawLoadingScreen` branch
resets `nextFrame` to false, cancelling the reschedule requested by the
earlier message — the claim that a reschedule requested BEFORE it still
re-arms the timer is false on the code. -/
theorem C3_cancel_counterexample :
    (handleMessages ⟨false, none, false, 0,
        [Message.mk .nextFrame none,
          Message.mk .drawLoadingScreen none]⟩).resched = false ∧
      (processQueue ⟨false, none, false, 0, []⟩ false
        [Message.mk .nextFrame none]).resched = true :=
  ⟨rfl, rfl⟩

/-- The context state after the spinner-off `DrawLoadingScreen` branch:
the shader program is rebuilt when a rebuild was flagged, and
`shouldRender` is marked for a one-time rebuild before the next real
frame. -/
def dlsSpinnerOffState (st : St) : St :=
  { st with
    shaderProgram :=
      if st.shouldRender then st.shaderProgram + 1 else st.shaderProgram,
    shouldRender := true }

/-- The render calls of the spinner-off `DrawLoadingScreen` branch. -/
def dlsSpinnerOffEffects (st : St) : List Effect :=
  Effect.clearCanvas ::
    (if st.shouldRender then [Effect.createShaderProgram] else []) ++
      [Effect.drawLoadingScreen]

/-- C3 amended: a `DrawLoadingScreen` processed while `showingSpinner`
is false does not itself request a reschedule and moreover RESETS the
local `nextFrame` flag to false, discarding any reschedule requested by
messages processed before it in the same drain; whether the timer is
re-armed is then decided solely by the messages processed after it
(restarting from `nextFrame = false`), e.g. a later `NextFrame` still
re-arms the timer. -/
theorem C3_spinner_off_branch (st : St) (nf : Bool) (post : List Message)
    (h : st.showingSpinner = false) :
    (processQueue st nf
        (Message.mk .drawLoadingScreen none :: post)).resched
        = (processQueue (dlsSpinnerOffState st) false post).resched ∧
      (processQueue st nf
        (Message.mk .drawLoadingScreen none :: post)).state
        = (processQueue (dlsSpinnerOffState st) false post).state ∧
      (processQueue st nf
        (Message.mk .drawLoadingScreen none :: post)).effects
        = dlsSpinnerOffEffects st ++
            (processQueue (dlsSpinnerOffState st) false post).effects ∧
      (processQueue st nf
        (Message.mk .drawLoadingScreen none :: post)).processed
        = .drawLoadingScreen ::
            (processQueue (dlsSpinnerOffState st) false post).processed := by
  rcases st with ⟨sp, dc, shr, shd, q⟩
  simp only at h
  subst h
  cases shr <;>
    simp [processQueue, processMessage, dlsSpinnerOffState,
      dlsSpinnerOffEffects, Message.kind, Message.next]

/-- Witness for `C3_spinner_off_branch` at a concrete input: with the
spinner off and a `NextFrame` drained after the `DrawLoadingScreen`, the
invocation is rescheduled by the later message. -/
theorem C3_spinner_off_branch_witness :
    (processQueue ⟨false, none, false, 0, []⟩ true
        [Message.mk .drawLoadingScreen none,
          Message.mk .nextFrame none]).resched
        = (processQueue (dlsSpinnerOffState ⟨false, none, false, 0, []⟩)
            false [Message.mk .nextFrame none]).resched ∧
      (processQueue (dlsSpinnerOffState ⟨false, none, false, 0, []⟩) false
        [Message.mk .nextFrame none]).resched = true :=
  ⟨(C3_spinner_off_branch ⟨false, none, false, 0, []⟩ true
      [Message.mk .nextFrame none] rfl).1, rfl⟩

/-- C4 counterexample: two chains pushed concurrently into the queue —
chain A = `ClearScreen → InitEmptyScene` and
chain B = `InitStepFile → NextFrame`.  Over the subsequent ticks the
processing order is `ClearScreen, InitStepFile, InitEmptyScene,
NextFrame`: chain B's first step (position 1) is processed strictly
BETWEEN the two consecutive steps of chain A (positions 0 and 2), so
the claim that no message of a different chain is ever processed
between two consecutive steps of a chain is false on the code. -/
theorem C4_interleaving_counterexample :
    (multiTick 2 ⟨false, none, false, 0,
        [Message.mk .clearScreen (chain [.initEmptyScene]),
          Message.mk .initStepFile (chain [.nextFrame])]⟩).processed
        = [.clearScreen, .initStepFile, .initEmptyScene, .nextFrame] ∧
      (multiTick 2 ⟨false, none, false, 0,
        [Message.mk .clearScreen (chain [.initEmptyScene]),
          Message.mk .initStepFile (chain [.nextFrame])]⟩).processed.get? 0
        = some .clearScreen ∧
      (multiTick 2 ⟨false, none, false, 0,
        [Message.mk .clearScreen (chain [.initEmptyScene]),
          Message.mk .initStepFile (chain [.nextFrame])]⟩).processed.get? 1
        = some .initStepFile ∧
      (multiTick 2 ⟨false, none, false, 0,
        [Message.mk .clearScreen (chain [.initEmptyScene]),
          Message.mk .initStepFile (chain [.nextFrame])]⟩).processed.get? 2
        = some .initEmptyScene :=
  ⟨rfl, rfl, rfl, rfl⟩

theorem roundRobin_sublist_left (ks : List MessageType) :
    ∀ ls, List.Sublist ks (roundRobin ks ls) := by
  induction ks with
  | nil => intro ls; simp [roundRobin]
  | cons k ks ih =>
    intro ls
    cases ls with
    | nil => simp [roundRobin]
    | cons l ls =>
      exact List.Sublist.cons₂ k (List.Sublist.cons l (ih ls))

theorem roundRobin_sublist_right (ks : List MessageType) :
    ∀ ls, List.Sublist ls (roundRobin ks ls) := by
  induction ks with
  | nil => intro ls; simp [roundRobin]
  | cons k ks ih =>
    intro ls
    cases ls with
    | nil => simp [roundRobin]
    | cons l ls =>
      exact List.Sublist.cons k (List.Sublist.cons₂ l (ih ls))

/-- C4 amended: for two chains of non-self-pushing kinds enqueued as two
linked values, the steps execute across subsequent ticks in LOCK-STEP
round-robin order: one step of each chain per tick.  Each chain's own
steps execute in chain order (each chain is an in-order sublist of the
processing trace), but steps of the concurrently pushed chain ARE
processed between consecutive steps of this chain whenever both chains
are still live. -/
theorem C4_round_robin (ks ls : List MessageType) (st : St)
    (hks : ∀ x ∈ ks, NonSched x) (hls : ∀ x ∈ ls, NonSched x)
    (hq : st.queue = chainList ks ++ chainList ls) :
    (multiTick (max ks.length ls.length) st).processed
        = roundRobin ks ls ∧
      List.Sublist ks
        ((multiTick (max ks.length ls.length) st).processed) ∧
      List.Sublist ls
        ((multiTick (max ks.length ls.length) st).processed) := by
  have h := trace_two_chains ks ls st hks hls hq
  refine ⟨h, ?_, ?_⟩ <;> rw [h]
  · exact roundRobin_sublist_left ks ls
  · exact roundRobin_sublist_right ks ls

/-- Witness for `C4_round_robin` at the chains
`[ClearScreen, InitEmptyScene]` and `[InitStepFile, ClearScreen]`. -/
theorem C4_round_robin_witness :
    (multiTick (max ([MessageType.clearScreen,
          MessageType.initEmptyScene]).length
        ([MessageType.initStepFile, MessageType.clearScreen]).length)
      ⟨false, none, false, 0,
        chainList [.clearScreen, .initEmptyScene] ++
          chainList [.initStepFile, .clearScreen]⟩).processed
      = roundRobin [.clearScreen, .initEmptyScene]
          [.initStepFile, .clearScreen] :=
  (C4_round_robin [.clearScreen, .initEmptyScene]
    [.initStepFile, .clearScreen]
    ⟨false, none, false, 0,
      chainList [.clearScreen, .initEmptyScene] ++
        chainList [.initStepFile, .clearScreen]⟩
    (by decide) (by decide) rfl).1

def isPush : LoadEvent → Bool
  | .pushMsg _ => true
  | _ => false

/-- C5 counterexample: in `StaircaseViewer::_loadStepFile` the events
performed before the blocking parse are exactly
`showingSpinner := true` and the `DrawLoadingScreen` push — for either
parse outcome there is NO scheduler-invocation trigger before the parse
begins, contrary to the claim. -/
theorem C5_no_pre_parse_trigger_counterexample :
    preParse (viewerLoadEvents none)
        = [.setSpinner true,
            .pushMsg (Message.mk .drawLoadingScreen none)] ∧
      (preParse (viewerLoadEvents none)).all (fun e => !isTrigger e)
        = true ∧
      preParse (viewerLoadEvents (some 0))
        = [.setSpinner true,
            .pushMsg (Message.mk .drawLoadingScreen none)] :=
  ⟨rfl, rfl, rfl⟩

/-- C5 amended: for every load request, the background worker sets
`showingSpinner` to true and pushes a `DrawLoadingScreen` message before
the blocking parse begins.  The legacy standalone loader (`loadStepFile`
in main.cpp) additionally triggers one scheduler invocation before the
parse; `StaircaseViewer::_loadStepFile` triggers NO scheduler invocation
before the parse (the frame loop started at construction services the
message instead). -/
theorem C5_loader_pre_parse (outcome : Option Nat) :
    preParse (viewerLoadEvents outcome)
        = [.setSpinner true,
            .pushMsg (Message.mk .drawLoadingScreen none)] ∧
      preParse (legacyLoadEvents outcome)
        = [.setSpinner true,
            .pushMsg (Message.mk .drawLoadingScreen none),
            .pushMsg (Message.mk .setStepFileContent none),
            .trigger] := by
  cases outcome <;> exact ⟨rfl, rfl⟩

/-- C6: the success callback of `StaircaseViewer::_loadStepFile` sets
the document handle and clears the spinner flag before it enqueues
anything (before its first push the context already has
`showingSpinner = false` and the handle set, with the queue untouched),
then enqueues exactly one message — the chain `ClearScreen ×3 →
InitStepFile → NextFrame` — and then triggers exactly one scheduler
invocation, as its final event. -/
theorem C6_success_callback (d : Nat) (st : St) :
    (applyEvents st ((viewerCallbackEvents (some d)).takeWhile
        (fun e => !isPush e))).showingSpinner = false ∧
      (applyEvents st ((viewerCallbackEvents (some d)).takeWhile
        (fun e => !isPush e))).currentlyViewingDoc = some d ∧
      (applyEvents st ((viewerCallbackEvents (some d)).takeWhile
        (fun e => !isPush e))).queue = st.queue ∧
      (viewerCallbackEvents (some d)).filter isPush
        = [.pushMsg (Message.mk .clearScreen
            (chain [.clearScreen, .clearScreen, .initStepFile,
              .nextFrame]))] ∧
      (Message.mk MessageType.clearScreen
        (chain [.clearScreen, .clearScreen, .initStepFile,
          .nextFrame])).kinds
        = [.clearScreen, .clearScreen, .clearScreen, .initStepFile,
            .nextFrame] ∧
      ((viewerCallbackEvents (some d)).filter isTrigger).length = 1 ∧
      (viewerCallbackEvents (some d)).getLast? = some .trigger ∧
      applyEvents st (viewerCallbackEvents (some d))
        = { st with
            showingSpinner := false,
            currentlyViewingDoc := some d,
            queue := st.queue ++ [Message.mk .clearScreen
              (chain [.clearScreen, .clearScreen, .initStepFile,
                .nextFrame])] } :=
  ⟨rfl, rfl, rfl, rfl, rfl, rfl, rfl, rfl⟩

/-- C7: when the parse returns an empty document handle, the completion
callback of `StaircaseViewer::_loadStepFile` only logs: applied to any
context it is the identity, so after the whole failed load the spinner
is still true (set before the parse), the document handle is exactly
what it was (still unset if unset), and the queue holds only the
`DrawLoadingScreen` pushed before the parse. -/
theorem C7_failure_no_mutation (st : St) :
    viewerCallbackEvents none = [.logFail] ∧
      applyEvents st (viewerCallbackEvents none) = st ∧
      (applyEvents st (viewerLoadEvents none)).showingSpinner = true ∧
      (applyEvents st (viewerLoadEvents none)).currentlyViewingDoc
        = st.currentlyViewingDoc ∧
      (applyEvents st (viewerLoadEvents none)).queue
        = st.queue ++ [Message.mk .drawLoadingScreen none] :=
  ⟨rfl, rfl, rfl, rfl, rfl⟩

theorem kinds_mk (k : MessageType) (o : Option Message) :
    (Message.mk k o).kinds = k :: kindsOpt o := by
  cases o <;> rfl

theorem chain_kinds (ks : List MessageType) : kindsOpt (chain ks) = ks := by
  induction ks with
  | nil => rfl
  | cons k ks ih =>
    show (Message.mk k (chain ks)).kinds = k :: ks
    rw [kinds_mk, ih]

/-- C8: the chain builder produces a singly linked list whose kinds in
front-to-back order are exactly its arguments, each node owning exactly
one successor except the last (`chain (k :: ks) = node k with successor
chain ks`; chains are acyclic and finite by construction, which is what
makes `Message.kinds` total).  Consumption is exactly-once: the queue
extension produced by processing a drained message is precisely its
own fresh self-push (for the `NextFrame`/spinner-on `DrawLoadingScreen`
branches) followed by its successor, if any — the processed node itself
is discarded, never re-enqueued — and within one drain every drained
message is processed exactly once, in order. -/
theorem C8_chain_invariants :
    (∀ ks, kindsOpt (chain ks) = ks) ∧
      (∀ (k : MessageType) (ks : List MessageType),
        chain (k :: ks) = some (Message.mk k (chain ks))) ∧
      (∀ (st : St) (nf : Bool) (m : Message),
        (processMessage st nf m).state.queue
          = st.queue ++ selfPush st m ++ m.next.toList) ∧
      (∀ (st : St) (nf : Bool) (ms : List Message),
        (processQueue st nf ms).processed = ms.map Message.kind) :=
  ⟨chain_kinds, fun _ _ => rfl, processMessage_queue,
    processQueue_processed⟩

/-- C9: a drained message of an unhandled kind (the scheduler's
`default:` branch — e.g. `SetStepFileContent` or `InitDemoScene` in
`StaircaseViewer::handleMessages`) is logged and has no effect on the
context: the final state and the reschedule decision of the invocation
equal those of the same drain with the message absent, and the effect
trace is the same with just the log entry spliced in — the other
messages are processed unaffected. -/
theorem C9_unknown_contained (st : St) (nf : Bool)
    (pre post : List Message) (k : MessageType) (h : Unhandled k) :
    (processQueue st nf (pre ++ Message.mk k none :: post)).state
        = (processQueue st nf (pre ++ post)).state ∧
      (processQueue st nf (pre ++ Message.mk k none :: post)).resched
        = (processQueue st nf (pre ++ post)).resched ∧
      (processQueue st nf (pre ++ Message.mk k none :: post)).effects
        = (processQueue st nf pre).effects ++ .logUnhandled ::
            (processQueue (processQueue st nf pre).state
              (processQueue st nf pre).resched post).effects ∧
      (processQueue st nf (pre ++ post)).effects
        = (processQueue st nf pre).effects ++
            (processQueue (processQueue st nf pre).state
              (processQueue st nf pre).resched post).effects := by
  have hstep := unhandled_step (processQueue st nf pre).state
    (processQueue st nf pre).resched k h
  have h1 := processQueue_append pre (Message.mk k none :: post) st nf
  have h2 := processQueue_append pre post st nf
  refine ⟨?_, ?_, ?_, ?_⟩ <;> simp only [h1, h2] <;>
    simp [processQueue, hstep]

/-- Witness for `C9_unknown_contained`: a `SetStepFileContent` singleton
drained between a `ClearScreen` and a `NextFrame` leaves the final
context state identical to the drain without it. -/
theorem C9_unknown_contained_witness :
    (processQueue ⟨true, none, false, 0, []⟩ false
        ([Message.mk .clearScreen none] ++
          Message.mk .setStepFileContent none ::
            [Message.mk .nextFrame none])).state
      = (processQueue ⟨true, none, false, 0, []⟩ false
          ([Message.mk .clearScreen none] ++
            [Message.mk .nextFrame none])).state :=
  (C9_unknown_contained ⟨true, none, false, 0, []⟩ false
    [Message.mk .clearScreen none] [Message.mk .nextFrame none]
    .setStepFileContent (Or.inl rfl)).1

/-- C10: one scheduler invocation processes exactly the messages present
in the queue at its initial drain — the processed kinds are the drained
queue's kinds, in order, so the invocation terminates after its drained
sequence — and anything pushed during the invocation (self-pushes and
chain successors, i.e. the queue left in the context) is processed only
by the next invocation. -/
theorem C10_drain_once_per_tick (st : St) :
    (handleMessages st).processed = st.queue.map Message.kind ∧
      (multiTick 2 st).processed
        = st.queue.map Message.kind ++
            (handleMessages st).state.queue.map Message.kind := by
  constructor
  · rw [handleMessages, processQueue_processed]
  · simp [multiTick, handleMessages, processQueue_processed]
